import Mathlib

/-!
Shallow embedding of the crawl-orchestration core of the `dealcollector`
repository (src/crawlers/): the duplicate filter, the retention trimmer,
the save loop (`main.py`), the crawl orchestrator (`crawler_manager.py`),
the retrying page fetch (`baseCrawler.py`), the shipped configuration
(`config.py`) and the page-loop / stop-marker logic of a representative
adapter (`community/clien.py`).

Modelling conventions:
 * Python dicts are association lists with last-write-wins insertion.
 * A collaborator call that may raise is modelled by an `Option`/`Except`
   valued input (`none` / `.error` = the call raised); the surrounding
   `try`/`except` blocks are translated into matches on that value.
 * Timestamps (`created_at`) are naturals; ISO-8601 strings compare the
   same way as the instants they denote.  `posted_at` values are `List Char`
   (Python compares strings lexicographically by code point, which is the
   lexicographic order on the character list).
 * Title similarity (`difflib.SequenceMatcher.ratio`) is an opaque
   parameter `sim : String → String → ℚ`; the code under study only ever
   compares it against a threshold.
 * Side effects relevant to the claims (the aggregate latest-url query,
   each adapter invocation with its stop marker, a per-source failure)
   are recorded in an event trace.
-/

/-- One harvested listing, as built by the adapters
(`community/clien.py`, `_parse_article`): a dict with `title`, `url`,
`posted_at` (absent for records lacking the field), `community_id`. -/
structure Deal where
  title : String
  url : String
  posted_at : Option (List Char)
  community_id : Nat
  deriving DecidableEq, Repr

/-- Python dict assignment `m[k] = v`: overwrite the binding if the key is
present, otherwise append the new binding. -/
def dictInsert {κ ν : Type} [BEq κ] (m : List (κ × ν)) (k : κ) (v : ν) : List (κ × ν) :=
  if m.any (fun p => p.1 == k) then m.map (fun p => if p.1 == k then (p.1, v) else p)
  else m ++ [(k, v)]

/-- Python `m.get(k)` / `m[k]` on a dict: the value bound to `k`, if any. -/
def dictGet {κ ν : Type} [BEq κ] (m : List (κ × ν)) (k : κ) : Option ν :=
  (m.find? (fun p => p.1 == k)).map Prod.snd

/-- Python `k in m` on a dict. -/
def dictHasKey {κ ν : Type} [BEq κ] (m : List (κ × ν)) (k : κ) : Bool :=
  m.any (fun p => p.1 == k)

/-- A dict built from a sequence of key/value pairs, inserted in order
(dict comprehension `{row.key: row.val for row in rows}`). -/
def dictFromRows {κ ν : Type} [BEq κ] (rows : List (κ × ν)) : List (κ × ν) :=
  rows.foldl (fun m r => dictInsert m r.1 r.2) []

/-- A Python scalar config value (`config.py` holds booleans and floats). -/
inductive ConfigVal where
  | bool (b : Bool)
  | num (q : ℚ)
  deriving DecidableEq, Repr

/-- `config.py` lines 48-51: the shipped `DUPLICATE_CHECK` dict.  Its only
keys are `enabled` and `similarity_threshold`. -/
def DUPLICATE_CHECK : List (String × ConfigVal) :=
  [("enabled", ConfigVal.bool true), ("similarity_threshold", ConfigVal.num (85 / 100))]

/-- `config.py` lines 54-56: the shipped `CLEANUP_CONFIG` dict. -/
def CLEANUP_CONFIG : List (String × ConfigVal) :=
  [("enabled", ConfigVal.bool true)]

/-- Reading `cfg['enabled']` as a boolean. -/
def cfgEnabled (cfg : List (String × ConfigVal)) : Bool :=
  match dictGet cfg "enabled" with
  | some (ConfigVal.bool b) => b
  | _ => false

/-- `utils/duplicate_checker.py` lines 53-67, `DealDuplicateChecker.is_duplicate`:
two titles are duplicates when their similarity reaches the threshold
(`similarity >= threshold`).  `sim` stands for `calculate_similarity`. -/
def is_duplicate (sim : String → String → ℚ) (title1 title2 : String) (threshold : ℚ) : Bool :=
  decide (threshold ≤ sim title1 title2)

/-- `main.py` lines 84-97, the `try` block of `filter_duplicates_by_title`:
read `DUPLICATE_CHECK['check_days']` (raising `KeyError` when the key is
missing), then query the deals of the lookback window (`queryResult`,
`none` when the query raises); any exception is caught and yields the
empty dict.  On success the rows are loaded into `{url: title}`. -/
def loadExistingTitles (cfg : List (String × ConfigVal))
    (queryResult : Option (List (String × String))) : List (String × String) :=
  match dictGet cfg "check_days" with
  | none => []
  | some _ =>
    match queryResult with
    | none => []
    | some rows => dictFromRows rows

/-- `main.py` lines 79-115, `filter_duplicates_by_title`: drop a deal whose
`url` is a key of the existing dict; otherwise scan the existing titles and
drop the deal as soon as one is similar enough (the `for`/`break` loop is
`List.any`, which short-circuits on the first match); keep the rest. -/
def filter_duplicates_by_title (sim : String → String → ℚ) (deals : List Deal)
    (cfg : List (String × ConfigVal)) (queryResult : Option (List (String × String)))
    (similarity_threshold : ℚ) : List Deal :=
  let existing_titles := loadExistingTitles cfg queryResult
  deals.filter (fun deal =>
    if dictHasKey existing_titles deal.url then false
    else !((existing_titles.map Prod.snd).any
      (fun existing_title => is_duplicate sim deal.title existing_title similarity_threshold)))

/-- One row of the `deals` table as seen by `cleanup_old_deals`. -/
structure DRow where
  community_id : Nat
  created_at : Nat
  deriving DecidableEq, Repr

/-- Newest-first comparison used by `.order('created_at', desc=True)`. -/
def createdDesc (a b : DRow) : Prop := b.created_at ≤ a.created_at

instance : DecidableRel createdDesc :=
  fun a b => inferInstanceAs (Decidable (b.created_at ≤ a.created_at))

instance : IsTotal DRow createdDesc :=
  ⟨fun a b => (Nat.le_total b.created_at a.created_at).elim Or.inl Or.inr⟩

instance : IsTrans DRow createdDesc :=
  ⟨fun _ _ _ h1 h2 => Nat.le_trans h2 h1⟩

/-- `main.py` lines 36-76, `cleanup_old_deals`: count the source's rows;
if the count is within `keep_count`, do nothing.  Otherwise select the
`keep_count` newest rows (order by `created_at` descending, limit
`keep_count`); if the selection is empty or short, do nothing; otherwise
take the `created_at` of its last row as the cutoff and delete the
source's rows with `created_at <` cutoff. -/
def cleanup_old_deals (db : List DRow) (community_id : Nat) (keep_count : Nat) : List DRow :=
  let total_count := (db.filter (fun r => r.community_id == community_id)).length
  if total_count ≤ keep_count then db
  else
    let selected :=
      (List.insertionSort createdDesc (db.filter (fun r => r.community_id == community_id))).take
        keep_count
    if selected.isEmpty || selected.length < keep_count then db
    else
      match selected.getLast? with
      | none => db
      | some cutoff_row =>
        db.filter (fun r => !(r.community_id == community_id && r.created_at < cutoff_row.created_at))

/-- The outcome of one call to `_safe_goto` (`baseCrawler.py` lines 71-87):
whether it returned `True`, how many navigation attempts it made, and the
backoff sleeps it performed, in order. -/
structure GotoResult where
  ok : Bool
  attempts : Nat
  sleeps : List Nat
  deriving DecidableEq, Repr

/-- The `for attempt in range(max_retries)` loop of `_safe_goto`,
structurally recursing on the remaining iterations (`attempt =
max_retries - remaining`).  A successful `page.goto` returns `True`; a
failed attempt that is not the last sleeps `(attempt + 1) * 2` seconds and
retries; a failed last attempt returns `False`. -/
def safe_goto_loop (goto_succeeds : Nat → Bool) (max_retries : Nat) :
    Nat → Nat → List Nat → GotoResult
  | 0, tried, slept => ⟨false, tried, slept⟩
  | remaining + 1, tried, slept =>
    let attempt := max_retries - (remaining + 1)
    if goto_succeeds attempt then ⟨true, tried + 1, slept⟩
    else if attempt < max_retries - 1 then
      safe_goto_loop goto_succeeds max_retries remaining (tried + 1)
        (slept ++ [(attempt + 1) * 2])
    else ⟨false, tried + 1, slept⟩

/-- `baseCrawler.py` lines 71-87, `_safe_goto` (leading underscore dropped):
`goto_succeeds i` tells whether the `i`-th navigation attempt succeeds. -/
def safe_goto (goto_succeeds : Nat → Bool) (max_retries : Nat := 3) : GotoResult :=
  safe_goto_loop goto_succeeds max_retries max_retries 0 []

/-- One entry of `CRAWL_CONFIG` (`config.py`). -/
structure SourceCfg where
  max_pages : Nat
  keep_count : Nat
  community_id : Nat
  deriving DecidableEq, Repr

/-- One registered source together with the behaviour of the collaborators
for this run: `cfg` is its `CRAWL_CONFIG` entry (`none` = not configured,
skipped); `crawl` is the adapter's result (`none` = the adapter raised);
`filterRes`/`saveRes` are the passed-in filter and save functions (`none`
= the call raised); `cleanupExc` says whether the cleanup call raised.
`accepts_last_url` records whether the adapter's `crawl` signature has a
`last_url` parameter: seven of the eight adapters under src do
(e.g. `clien.py:27`), but `QuasarzoneCrawler.crawl` (`quasarzone.py:27`)
is `crawl(self, max_pages=1)` — calling it with a `last_url` keyword
raises `TypeError` at argument binding, before the adapter body runs. -/
structure SourceRun where
  name : String
  cfg : Option SourceCfg
  crawl : Option (List Deal)
  filterRes : List Deal → Option (List Deal)
  saveRes : List Deal → Option Nat
  cleanupExc : Bool
  accepts_last_url : Bool

/-- Observable events of a run. -/
inductive Event where
  | aggQuery
  | crawlCall (sourceName : String) (max_pages : Nat) (last_url : Option String)
  | sourceFailed (sourceName : String)
  deriving DecidableEq, Repr

/-- `crawler_manager.py` lines 18-33, `_get_latest_urls` (underscore
dropped): one `rpc('get_latest_urls_per_community')` call; on exception or
empty data the cache stays empty, otherwise each row is inserted into the
`{community_id: url}` dict. -/
def get_latest_urls (rpcResult : Option (List (Nat × String))) : List (Nat × String) :=
  match rpcResult with
  | none => []
  | some rows => dictFromRows rows

/-- What one iteration of the `crawl_all` source loop produces. -/
structure StepOut where
  events : List Event
  crawled : Nat
  saved : Nat
  deriving DecidableEq, Repr

/-- `crawler_manager.py` lines 85-139, the body of the `crawl_all` loop for
one source: skip unconfigured sources; look up the source's stop marker in
the latest-url cache; call
`crawler.crawl(max_pages=..., last_url=last_url)` (lines 101-104).  When
the adapter's signature lacks the `last_url` parameter (quasarzone), that
call raises `TypeError` at binding: the adapter is never invoked (no
`crawlCall` event) and the per-source `except` records the failure.
Otherwise the invocation is recorded with the marker it received; an empty
result skips the source; the crawl count is added *before* filtering, then
the batch is filtered (when enabled) and saved, then cleanup runs (when
enabled).  An exception in any of these is caught by the per-source
`except`, recorded as a `sourceFailed` event, keeping whatever counters
were already added. -/
def sourceStep (latest_urls : List (Nat × String)) (dup_enabled cleanup_enabled : Bool)
    (s : SourceRun) : StepOut :=
  match s.cfg with
  | none => ⟨[], 0, 0⟩
  | some config =>
    let last_url := dictGet latest_urls config.community_id
    if s.accepts_last_url then
      let ev := Event.crawlCall s.name config.max_pages last_url
      match s.crawl with
      | none => ⟨[ev, Event.sourceFailed s.name], 0, 0⟩
      | some deals =>
        if deals.isEmpty then ⟨[ev], 0, 0⟩
        else
          match (if dup_enabled then s.filterRes deals else some deals) with
          | none => ⟨[ev, Event.sourceFailed s.name], deals.length, 0⟩
          | some filtered =>
            match s.saveRes filtered with
            | none => ⟨[ev, Event.sourceFailed s.name], deals.length, 0⟩
            | some saved_count =>
              if cleanup_enabled && s.cleanupExc then
                ⟨[ev, Event.sourceFailed s.name], deals.length, saved_count⟩
              else ⟨[ev], deals.length, saved_count⟩
    else ⟨[Event.sourceFailed s.name], 0, 0⟩

/-- The aggregate result of a run. -/
structure RunResult where
  total_crawled : Nat
  total_saved : Nat
  trace : List Event
  deriving DecidableEq, Repr

/-- `crawler_manager.py` lines 70-142, `crawl_all`: one `_get_latest_urls`
call (the single `aggQuery` event), then the per-source loop accumulating
`total_crawled` and `total_saved`. -/
def crawl_all (rpcResult : Option (List (Nat × String))) (sources : List SourceRun)
    (dup_enabled cleanup_enabled : Bool) : RunResult :=
  let latest_urls := get_latest_urls rpcResult
  sources.foldl
    (fun acc s =>
      let st := sourceStep latest_urls dup_enabled cleanup_enabled s
      ⟨acc.total_crawled + st.crawled, acc.total_saved + st.saved, acc.trace ++ st.events⟩)
    ⟨0, 0, [Event.aggQuery]⟩

/-- `main.py` lines 147-174 together with the `if __name__ == '__main__'`
guard: the entry point (modelled on the path where the Store client
connects) builds the manager and calls `crawl_all` with the shipped config
flags.  The function body never consults `argv`. -/
def main_run (argv : List String) (rpcResult : Option (List (Nat × String)))
    (sources : List SourceRun) : RunResult :=
  crawl_all rpcResult sources (cfgEnabled DUPLICATE_CHECK) (cfgEnabled CLEANUP_CONFIG)

/-- The result of `crawl_community`: the saved count it returns, plus the
events observed. -/
structure CommunityRunOut where
  saved : Nat
  events : List Event
  deriving DecidableEq, Repr

/-- `crawler_manager.py` lines 144-203, `crawl_community`: run a single
source by name.  The adapter is invoked as `crawler.crawl(max_pages=...)`,
with no `last_url` argument — a binding that fits every adapter's
signature, `quasarzone.py` included — so the recorded stop marker is
always `none`.  Any exception yields the return value `0`. -/
def crawl_community (registry : List SourceRun) (community_name : String)
    (dup_enabled cleanup_enabled : Bool) : CommunityRunOut :=
  match registry.find? (fun s => s.name == community_name) with
  | none => ⟨0, []⟩
  | some s =>
    match s.cfg with
    | none => ⟨0, []⟩
    | some config =>
      let ev := Event.crawlCall community_name config.max_pages none
      match s.crawl with
      | none => ⟨0, [ev, Event.sourceFailed community_name]⟩
      | some deals =>
        if deals.isEmpty then ⟨0, [ev]⟩
        else
          match (if dup_enabled then s.filterRes deals else some deals) with
          | none => ⟨0, [ev, Event.sourceFailed community_name]⟩
          | some filtered =>
            match s.saveRes filtered with
            | none => ⟨0, [ev, Event.sourceFailed community_name]⟩
            | some saved_count =>
              if cleanup_enabled && s.cleanupExc then
                ⟨0, [ev, Event.sourceFailed community_name]⟩
              else ⟨saved_count, [ev]⟩

/-- `community/clien.py` line 132: stop when a `last_url` was supplied and
the parsed deal's url equals it (`if last_url and deal['url'] == last_url`). -/
def stop_at_last_url (last_url : Option String) (url : String) : Bool :=
  match last_url with
  | some lu => url == lu
  | none => false

/-- `community/clien.py` lines 127-142, the article loop of `_crawl_page`:
collect parsed deals in order, stopping (with the stop flag set, the
matching record excluded) at the stop marker. -/
def clien_crawl_page (articles : List Deal) (last_url : Option String) : List Deal × Bool :=
  match articles with
  | [] => ([], false)
  | a :: rest =>
    if stop_at_last_url last_url a.url then ([], true)
    else
      let (ds, stop) := clien_crawl_page rest last_url
      (a :: ds, stop)

/-- `community/clien.py` lines 51-62, the page loop of `crawl`: up to
`max_pages` pages, breaking before the next page once the stop flag was
raised.  `pages n` is the parsed article list of page `n`; the loop
recurses structurally on the remaining page count. -/
def clien_crawl_loop (pages : Nat → List Deal) (last_url : Option String) :
    Nat → Nat → Bool → List Deal
  | 0, _, _ => []
  | remaining + 1, page_num, should_stop =>
    if should_stop then []
    else
      let pr := clien_crawl_page (pages page_num) last_url
      pr.1 ++ clien_crawl_loop pages last_url remaining (page_num + 1) (should_stop || pr.2)

/-- `community/clien.py` lines 27-70, `crawl`: crawl `max_pages` pages
starting at page 0 with no stop raised yet (`last_url` defaults to none). -/
def clien_crawl (pages : Nat → List Deal) (max_pages : Nat)
    (last_url : Option String := none) : List Deal :=
  clien_crawl_loop pages last_url max_pages 0 false

/-- The sort key of `save_deals_to_supabase`: `x.get('posted_at', '')`. -/
def posted_at_key (deal : Deal) : List Char := deal.posted_at.getD []

/-- Ascending comparison by `posted_at` key (Python `sorted`). -/
def posted_at_le (a b : Deal) : Prop := posted_at_key a ≤ posted_at_key b

instance : DecidableRel posted_at_le :=
  fun a b => inferInstanceAs (Decidable (posted_at_key a ≤ posted_at_key b))

instance : IsTotal Deal posted_at_le :=
  ⟨fun a b => le_total (posted_at_key a) (posted_at_key b)⟩

instance : IsTrans Deal posted_at_le :=
  ⟨fun _ _ _ h1 h2 => le_trans h1 h2⟩

/-- Python `needle.isPrefix-like` check on char lists. -/
def listPrefixOf : List Char → List Char → Bool
  | [], _ => true
  | _ :: _, [] => false
  | a :: as, b :: bs => a == b && listPrefixOf as bs

/-- Python `needle in hay` on strings, over char lists: `needle` occurs as
a contiguous substring of `hay`. -/
def listContains (hay needle : List Char) : Bool :=
  if listPrefixOf needle hay then true
  else
    match hay with
    | [] => false
    | _ :: t => listContains t needle

/-- Python `s.lower()`: lower-case each character. -/
def toLowerChars (s : String) : List Char := s.toList.map Char.toLower

/-- `main.py` line 136: an insert error counts as a duplicate when
`'duplicate' in error_msg.lower() or 'unique' in error_msg.lower()`. -/
def is_duplicate_error (error_msg : String) : Bool :=
  listContains (toLowerChars error_msg) "duplicate".toList ||
  listContains (toLowerChars error_msg) "unique".toList

/-- The observable outcome of `save_deals_to_supabase`: the three counters
and the sequence of deals in the order their inserts were attempted. -/
structure SaveOut where
  saved_count : Nat
  duplicate_count : Nat
  error_count : Nat
  insert_order : List Deal
  deriving Repr

/-- `main.py` lines 118-144, `save_deals_to_supabase`: sort the batch
ascending by `x.get('posted_at', '')`, then try to insert each record;
a successful insert increments `saved_count`; a raising insert whose
message is a duplicate/unique violation increments `duplicate_count`,
any other raising insert increments `error_count`.  The function returns
`saved_count`.  `insert d` is the store's response for `d`. -/
def save_deals_to_supabase (insert : Deal → Except String Unit) (deals : List Deal) : SaveOut :=
  let deals_sorted := List.insertionSort posted_at_le deals
  let counts := deals_sorted.foldl
    (fun (acc : Nat × Nat × Nat) deal =>
      match insert deal with
      | Except.ok _ => (acc.1 + 1, acc.2.1, acc.2.2)
      | Except.error e =>
        if is_duplicate_error e then (acc.1, acc.2.1 + 1, acc.2.2)
        else (acc.1, acc.2.1, acc.2.2 + 1))
    (0, 0, 0)
  ⟨counts.1, counts.2.1, counts.2.2, deals_sorted⟩

/-! ## Helper lemmas -/

/-- Folding dict insertion over rows with pairwise distinct keys appends
them unchanged. -/
theorem foldl_dictInsert_eq_append {κ ν : Type} [BEq κ] [LawfulBEq κ] :
    ∀ (rows acc : List (κ × ν)), ((acc ++ rows).map Prod.fst).Nodup →
      rows.foldl (fun m r => dictInsert m r.1 r.2) acc = acc ++ rows := by
  intro rows
  induction rows with
  | nil => intro acc _; simp
  | cons r rest ih =>
    intro acc h
    have hdisj : List.Disjoint (acc.map Prod.fst) (r.1 :: rest.map Prod.fst) := by
      have h' := h
      rw [List.map_append, List.map_cons, List.nodup_append] at h'
      exact h'.2.2
    have hnotin : r.1 ∉ acc.map Prod.fst := fun hmem =>
      hdisj hmem (List.mem_cons_self _ _)
    have hany : (acc.any (fun p => p.1 == r.1)) = false := by
      rw [List.any_eq_false]
      intro p hp hbeq
      exact hnotin (List.mem_map.mpr ⟨p, hp, beq_iff_eq.mp hbeq⟩)
    have hins : dictInsert acc r.1 r.2 = acc ++ [r] := by
      unfold dictInsert
      rw [hany]
      simp
    rw [List.foldl_cons, hins, ih (acc ++ [r]) (by simpa using h)]
    simp

/-- With distinct keys, `dictFromRows` is the identity. -/
theorem dictFromRows_eq_self {κ ν : Type} [BEq κ] [LawfulBEq κ] (rows : List (κ × ν))
    (h : (rows.map Prod.fst).Nodup) : dictFromRows rows = rows := by
  have := foldl_dictInsert_eq_append rows [] (by simpa using h)
  simpa [dictFromRows] using this

/-- The shipped `DUPLICATE_CHECK` dict has no `check_days` key, so the
`try` block of `filter_duplicates_by_title` always ends in the exception
handler with an empty dict of existing titles. -/
theorem loadExistingTitles_shipped (q : Option (List (String × String))) :
    loadExistingTitles DUPLICATE_CHECK q = [] := rfl

/-- Under the shipped configuration the duplicate filter passes every
batch through unchanged. -/
theorem shippedFilter_id (sim : String → String → ℚ) (θ : ℚ)
    (q : Option (List (String × String))) (deals : List Deal) :
    filter_duplicates_by_title sim deals DUPLICATE_CHECK q θ = deals := by
  unfold filter_duplicates_by_title
  rw [loadExistingTitles_shipped]
  simp [dictHasKey]

/-- A dict has a key iff the key occurs among the pairs' first components. -/
theorem dictHasKey_iff {κ ν : Type} [BEq κ] [LawfulBEq κ] (m : List (κ × ν)) (k : κ) :
    dictHasKey m k = true ↔ k ∈ m.map Prod.fst := by
  simp [dictHasKey, List.any_eq_true, List.mem_map, beq_iff_eq]

/-- The intended filter semantics (the loop of `main.py:99-112`): when the
lookback-window query succeeds (returning rows with pairwise distinct
urls) and the `check_days` config key is present,
`filter_duplicates_by_title` keeps a deal iff its url is not among the
stored urls of the window and its title's similarity to every stored
title of the window is strictly below the threshold; rejection is binary
— membership in the output only depends on the existence of a similar
title (the scan stops at the first match).  The shipped config never
satisfies the `check_days` hypothesis: see
`filter_keeps_already_stored_url`. -/
theorem filter_duplicates_keeps_iff (sim : String → String → ℚ) (θ : ℚ)
    (cfg : List (String × ConfigVal)) (v : ConfigVal) (rows : List (String × String))
    (deals : List Deal) (d : Deal)
    (hcfg : dictGet cfg "check_days" = some v)
    (hkeys : (rows.map Prod.fst).Nodup) :
    d ∈ filter_duplicates_by_title sim deals cfg (some rows) θ ↔
      d ∈ deals ∧ d.url ∉ rows.map Prod.fst ∧
        ∀ t ∈ rows.map Prod.snd, sim d.title t < θ := by
  simp only [filter_duplicates_by_title]
  have hload : loadExistingTitles cfg (some rows) = rows := by
    unfold loadExistingTitles
    rw [hcfg]
    exact dictFromRows_eq_self rows hkeys
  rw [hload, List.mem_filter]
  by_cases hk : dictHasKey rows d.url
  · have hmem : d.url ∈ rows.map Prod.fst := (dictHasKey_iff rows d.url).mp hk
    simp [hk, hmem]
  · have hmem : d.url ∉ rows.map Prod.fst := fun hm => hk ((dictHasKey_iff rows d.url).mpr hm)
    simp [hk, hmem, is_duplicate, List.any_eq_true, not_le]

/-- Concrete instance of the intended filter semantics: a configuration
with `check_days` present, a one-row window, and a fresh deal that the
filter keeps. -/
theorem filter_duplicates_keeps_iff_witness :
    dictGet [("check_days", ConfigVal.num 7)] "check_days" = some (ConfigVal.num 7) ∧
    (([("u1", "t1")] : List (String × String)).map Prod.fst).Nodup ∧
    (⟨"fresh title", "u2", none, 10⟩ : Deal) ∈
      filter_duplicates_by_title (fun _ _ => 0) [⟨"fresh title", "u2", none, 10⟩]
        [("check_days", ConfigVal.num 7)] (some [("u1", "t1")]) 1 := by
  refine ⟨rfl, by decide, ?_⟩
  exact (filter_duplicates_keeps_iff (fun _ _ => 0) 1 [("check_days", ConfigVal.num 7)]
      (ConfigVal.num 7) [("u1", "t1")] [⟨"fresh title", "u2", none, 10⟩]
      ⟨"fresh title", "u2", none, 10⟩ rfl (by decide)).mpr
    ⟨List.mem_singleton.mpr rfl, by decide, by intro t ht; norm_num⟩

/-- C8: with the shipped configuration, in which `DUPLICATE_CHECK` has only
the keys `enabled` and `similarity_threshold`, every call to
`filter_duplicates_by_title` hits the `KeyError` on
`DUPLICATE_CHECK['check_days']`, is caught, proceeds with no existing
titles, and returns its input batch unchanged — regardless of how the
lookback-window query would have answered. -/
theorem shipped_config_makes_filter_noop (sim : String → String → ℚ) (θ : ℚ)
    (queryResult : Option (List (String × String))) (deals : List Deal) :
    dictGet DUPLICATE_CHECK "check_days" = none ∧
    filter_duplicates_by_title sim deals DUPLICATE_CHECK queryResult θ = deals :=
  ⟨rfl, shippedFilter_id sim θ queryResult deals⟩

/-- C1 (code bug): the filter loop implements the spec's rule — a deal
whose url is already stored in the lookback window is dropped, and the
fuzzy-title rejection is binary against the threshold — but the shipped
`DUPLICATE_CHECK` dict (`config.py:48-51`) omits the `check_days` key that
`main.py:85` reads, so on the failing input below the shipped program
keeps a deal whose url `u1` is already stored in the window: the
`KeyError` handler empties the window and nothing is filtered.  With the
`check_days` key present, the same call drops the deal, as the claim
demands — the config omission, not the filter logic, is the slip. -/
theorem filter_keeps_already_stored_url (sim : String → String → ℚ) :
    ("u1" : String) ∈ ([("u1", "t1")] : List (String × String)).map Prod.fst ∧
    filter_duplicates_by_title sim [⟨"t", "u1", none, 10⟩] DUPLICATE_CHECK
      (some [("u1", "t1")]) (85 / 100) = [⟨"t", "u1", none, 10⟩] ∧
    filter_duplicates_by_title sim [⟨"t", "u1", none, 10⟩]
      [("check_days", ConfigVal.num 7)] (some [("u1", "t1")]) (85 / 100) = [] :=
  ⟨by decide,
   shippedFilter_id sim (85 / 100) (some [("u1", "t1")]) [⟨"t", "u1", none, 10⟩],
   rfl⟩

/-- C6: when a source's stored record count is at most `keep_count`, the
trim is a no-op — it issues no delete and returns the store unchanged. -/
theorem cleanup_noop_within_keep (db : List DRow) (cid keep : Nat)
    (h : (db.filter (fun r => r.community_id == cid)).length ≤ keep) :
    cleanup_old_deals db cid keep = db := by
  simp only [cleanup_old_deals]
  rw [if_pos h]

/-- Witness for C6: a source holding 2 records with `keep_count = 3` is
untouched by a trim pass. -/
theorem cleanup_noop_within_keep_witness :
    (([⟨1, 10⟩, ⟨1, 20⟩] : List DRow).filter (fun r => r.community_id == 1)).length ≤ 3 ∧
    cleanup_old_deals [⟨1, 10⟩, ⟨1, 20⟩] 1 3 = [⟨1, 10⟩, ⟨1, 20⟩] :=
  ⟨by decide, cleanup_noop_within_keep _ 1 3 (by decide)⟩

/-- Counterexample to C2: deletion uses a strict `created_at < cutoff`
comparison, so records tying the cutoff timestamp all survive.  Twelve
records sharing one timestamp with `keep_count = 2` are all kept: the
retention ceiling is exceeded by 10 with no race involved. -/
theorem cleanup_retention_bound_cex :
    cleanup_old_deals (List.replicate 12 (⟨1, 5⟩ : DRow)) 1 2 = List.replicate 12 ⟨1, 5⟩ ∧
    ((cleanup_old_deals (List.replicate 12 (⟨1, 5⟩ : DRow)) 1 2).filter
      (fun r => r.community_id == 1)).length = 12 ∧
    ¬ (12 ≤ 2) := by decide

/-- C2 (amended): when the source's stored records carry pairwise distinct
`created_at` values and their count exceeds `keep_count` (with
`keep_count` positive), a trim pass leaves exactly `keep_count` records
for that source, touches no record of other sources, and every deleted
record is strictly older than every kept record of the source — i.e. the
`keep_count` newest survive.  (With timestamp ties at the cutoff the bound
can be exceeded, see the counterexample.) -/
theorem cleanup_trims_to_keep_newest (db : List DRow) (cid keep : Nat)
    (hk : 0 < keep)
    (hgt : keep < (db.filter (fun r => r.community_id == cid)).length)
    (hnd : ((db.filter (fun r => r.community_id == cid)).map DRow.created_at).Nodup) :
    ((cleanup_old_deals db cid keep).filter (fun r => r.community_id == cid)).length = keep ∧
    (∀ r ∈ db, r.community_id ≠ cid → r ∈ cleanup_old_deals db cid keep) ∧
    (∀ r s : DRow, r ∈ cleanup_old_deals db cid keep → r.community_id = cid →
      s ∈ db → s ∉ cleanup_old_deals db cid keep → s.created_at < r.created_at) := by
  set mine := db.filter (fun r => r.community_id == cid) with hmine
  set sorted := List.insertionSort createdDesc mine with hsorted
  have hperm : sorted.Perm mine := List.perm_insertionSort _ _
  have hlen : sorted.length = mine.length := hperm.length_eq
  set selected := sorted.take keep with hsel
  have hsellen : selected.length = keep := by
    rw [hsel, List.length_take]
    omega
  have hselne : selected ≠ [] := by
    intro h
    rw [h] at hsellen
    simp at hsellen
    omega
  set cutoff := selected.getLast hselne with hcutoff
  have hcut : selected.getLast? = some cutoff := List.getLast?_eq_getLast _ hselne
  have hempty : selected.isEmpty = false := List.isEmpty_eq_false.mpr hselne
  have hrun : cleanup_old_deals db cid keep =
      db.filter (fun r => !(r.community_id == cid && r.created_at < cutoff.created_at)) := by
    simp only [cleanup_old_deals]
    rw [← hmine, ← hsorted, ← hsel]
    rw [if_neg (by omega : ¬ mine.length ≤ keep)]
    rw [if_neg (by simp [hempty, hsellen] : ¬ ((selected.isEmpty || decide (selected.length < keep)) = true))]
    rw [hcut]
  have hsorted_pw : List.Pairwise createdDesc sorted := List.sorted_insertionSort createdDesc mine
  have hsplit : selected ++ sorted.drop keep = sorted := by
    rw [hsel]
    exact List.take_append_drop keep sorted
  have hpw_split : List.Pairwise createdDesc (selected ++ sorted.drop keep) := by
    rw [hsplit]
    exact hsorted_pw
  have hcross : ∀ a ∈ selected, ∀ b ∈ sorted.drop keep, createdDesc a b :=
    (List.pairwise_append.mp hpw_split).2.2
  have hsel_pw : List.Pairwise createdDesc selected := (List.pairwise_append.mp hpw_split).1
  have hcut_mem : cutoff ∈ selected := List.getLast_mem hselne
  have hsel_decomp : selected.dropLast ++ [cutoff] = selected :=
    List.dropLast_append_getLast hselne
  have hA : ∀ a ∈ selected, cutoff.created_at ≤ a.created_at := by
    intro a ha
    rw [← hsel_decomp] at hsel_pw ha
    rcases List.mem_append.mp ha with h1 | h2
    · exact (List.pairwise_append.mp hsel_pw).2.2 a h1 cutoff (List.mem_singleton.mpr rfl)
    · rw [List.mem_singleton.mp h2]
  have hnd_sorted : (sorted.map DRow.created_at).Nodup :=
    ((hperm.map DRow.created_at).nodup_iff).mpr hnd
  have hB : ∀ b ∈ sorted.drop keep, b.created_at < cutoff.created_at := by
    intro b hb
    have hle : b.created_at ≤ cutoff.created_at := hcross cutoff hcut_mem b hb
    have hne : b.created_at ≠ cutoff.created_at := by
      intro heq
      have hmap : (selected.map DRow.created_at ++
          (sorted.drop keep).map DRow.created_at).Nodup := by
        rw [← List.map_append, hsplit]
        exact hnd_sorted
      exact (List.nodup_append.mp hmap).2.2
        (List.mem_map.mpr ⟨cutoff, hcut_mem, rfl⟩) (List.mem_map.mpr ⟨b, hb, heq⟩)
    exact Nat.lt_of_le_of_ne hle hne
  have hcount : mine.countP (fun r => !(decide (r.created_at < cutoff.created_at))) = keep := by
    rw [← hperm.countP_eq, ← hsplit, List.countP_append]
    have hTake : selected.countP (fun r => !(decide (r.created_at < cutoff.created_at))) =
        selected.length := by
      rw [List.countP_eq_length]
      intro a ha
      simp only [Bool.not_eq_true', decide_eq_false_iff_not, Nat.not_lt]
      exact hA a ha
    have hDrop : (sorted.drop keep).countP
        (fun r => !(decide (r.created_at < cutoff.created_at))) = 0 := by
      rw [List.countP_eq_zero]
      intro b hb
      simp only [Bool.not_eq_true', decide_eq_false_iff_not, Nat.not_lt, not_le]
      exact hB b hb
    rw [hTake, hDrop, hsellen]
    omega
  refine ⟨?_, ?_, ?_⟩
  · rw [hrun, ← List.countP_eq_length_filter, List.countP_filter]
    have : mine.countP (fun r => !(decide (r.created_at < cutoff.created_at))) =
        db.countP (fun r =>
          (r.community_id == cid) && !(r.community_id == cid && decide (r.created_at < cutoff.created_at))) := by
      rw [hmine, List.countP_filter]
      refine List.countP_congr ?_
      intro x _
      cases hx : x.community_id == cid <;> simp [hx]
    rw [← this, hcount]
  · intro r hr hne
    rw [hrun, List.mem_filter]
    refine ⟨hr, ?_⟩
    have : (r.community_id == cid) = false := beq_eq_false_iff_ne.mpr hne
    simp [this]
  · intro r s hr hrcid hs hsnot
    rw [hrun, List.mem_filter] at hr hsnot
    have hrkeep : ¬ (r.created_at < cutoff.created_at) := by
      have := hr.2
      simp only [Bool.not_eq_true', Bool.and_eq_false_iff, beq_eq_false_iff_ne,
        decide_eq_false_iff_not] at this
      rcases this with h | h
      · exact absurd hrcid h
      · exact h
    have hsdel : s.created_at < cutoff.created_at := by
      have : ¬ ((!(s.community_id == cid && decide (s.created_at < cutoff.created_at))) = true) := by
        intro hcontra
        exact hsnot ⟨hs, hcontra⟩
      simp only [Bool.not_eq_true', Bool.not_eq_false, Bool.and_eq_true, beq_iff_eq,
        decide_eq_true_eq] at this
      exact this.2
    omega

/-- Witness for C2: a source with 3 distinct-timestamp records and
`keep_count = 2` is trimmed to exactly 2 records. -/
theorem cleanup_trims_to_keep_newest_witness :
    (0 : Nat) < 2 ∧
    2 < (([⟨1, 10⟩, ⟨1, 20⟩, ⟨1, 30⟩] : List DRow).filter (fun r => r.community_id == 1)).length ∧
    ((([⟨1, 10⟩, ⟨1, 20⟩, ⟨1, 30⟩] : List DRow).filter
      (fun r => r.community_id == 1)).map DRow.created_at).Nodup ∧
    ((cleanup_old_deals [⟨1, 10⟩, ⟨1, 20⟩, ⟨1, 30⟩] 1 2).filter
      (fun r => r.community_id == 1)).length = 2 :=
  ⟨by decide, by decide, by decide,
    (cleanup_trims_to_keep_newest [⟨1, 10⟩, ⟨1, 20⟩, ⟨1, 30⟩] 1 2
      (by decide) (by decide) (by decide)).1⟩

/-- Counterexample to C5: when all 3 attempts fail, `_safe_goto` sleeps
only between consecutive attempts — 2 then 4 seconds — for a total
backoff of 6 time units, not 2+4+6 = 12. -/
theorem safe_goto_backoff_cex :
    safe_goto (fun _ => false) 3 = ⟨false, 3, [2, 4]⟩ ∧
    (safe_goto (fun _ => false) 3).sleeps.sum = 6 ∧ (6 : Nat) ≠ 2 + 4 + 6 := by decide

/-- C5 (amended): a fetch failing on every one of its 3 attempts returns a
failure value (no exception) after exactly 3 navigation attempts, having
slept `(attempt+1) × 2` seconds after each non-final failed attempt — the
backoffs are 2 and 4 seconds, totalling 6 time units. -/
theorem safe_goto_retry_exhaustion (goto_succeeds : Nat → Bool)
    (h0 : goto_succeeds 0 = false) (h1 : goto_succeeds 1 = false)
    (h2 : goto_succeeds 2 = false) :
    safe_goto goto_succeeds 3 = ⟨false, 3, [2, 4]⟩ ∧
    (safe_goto goto_succeeds 3).sleeps.sum = 2 + 4 := by
  have e : safe_goto goto_succeeds 3 = ⟨false, 3, [2, 4]⟩ := by
    simp [safe_goto, safe_goto_loop, h0, h1, h2]
  exact ⟨e, by rw [e]; rfl⟩


/-- Witness for C5 (amended): the always-failing fetch oracle. -/
theorem safe_goto_retry_exhaustion_witness :
    (fun _ => false : Nat → Bool) 0 = false ∧ (fun _ => false : Nat → Bool) 1 = false ∧
    (fun _ => false : Nat → Bool) 2 = false ∧
    safe_goto (fun _ => false) 3 = ⟨false, 3, [2, 4]⟩ :=
  ⟨rfl, rfl, rfl, (safe_goto_retry_exhaustion (fun _ => false) rfl rfl rfl).1⟩

/-- The `crawl_all` fold, run from any accumulator, adds the per-source
contributions and appends the per-source events. -/
theorem crawl_all_foldl (L : List (Nat × String)) (d c : Bool) :
    ∀ (ss : List SourceRun) (init : RunResult),
      ss.foldl (fun acc s =>
        ⟨acc.total_crawled + (sourceStep L d c s).crawled,
         acc.total_saved + (sourceStep L d c s).saved,
         acc.trace ++ (sourceStep L d c s).events⟩) init =
      ⟨init.total_crawled + (ss.map fun s => (sourceStep L d c s).crawled).sum,
       init.total_saved + (ss.map fun s => (sourceStep L d c s).saved).sum,
       init.trace ++ (ss.map fun s => (sourceStep L d c s).events).flatten⟩ := by
  intro ss
  induction ss with
  | nil => intro init; simp
  | cons s rest ih =>
    intro init
    rw [List.foldl_cons, ih]
    simp [Nat.add_assoc]

/-- `crawl_all` in closed form: the trace is the single aggregate query
followed by each source's events in order, and the totals are the sums of
the per-source contributions — each a function of that source alone. -/
theorem crawl_all_decomposition (rpcResult : Option (List (Nat × String)))
    (sources : List SourceRun) (d c : Bool) :
    crawl_all rpcResult sources d c =
      ⟨(sources.map fun s => (sourceStep (get_latest_urls rpcResult) d c s).crawled).sum,
       (sources.map fun s => (sourceStep (get_latest_urls rpcResult) d c s).saved).sum,
       Event.aggQuery ::
         (sources.map fun s => (sourceStep (get_latest_urls rpcResult) d c s).events).flatten⟩ := by
  have h0 : crawl_all rpcResult sources d c =
      sources.foldl (fun acc s =>
        ⟨acc.total_crawled + (sourceStep (get_latest_urls rpcResult) d c s).crawled,
         acc.total_saved + (sourceStep (get_latest_urls rpcResult) d c s).saved,
         acc.trace ++ (sourceStep (get_latest_urls rpcResult) d c s).events⟩)
        ⟨0, 0, [Event.aggQuery]⟩ := rfl
  rw [h0, crawl_all_foldl]
  simp

/-- No source iteration ever issues the aggregate query. -/
theorem sourceStep_no_aggQuery (L : List (Nat × String)) (d c : Bool) (s : SourceRun) :
    Event.aggQuery ∉ (sourceStep L d c s).events := by
  unfold sourceStep
  repeat' split
  all_goals simp

/-- A configured source whose adapter signature accepts `last_url` has
events starting with its adapter invocation, carrying the marker looked
up in the latest-url cache. -/
theorem sourceStep_crawlCall (L : List (Nat × String)) (d c : Bool) (s : SourceRun)
    (config : SourceCfg) (hcfg : s.cfg = some config)
    (hacc : s.accepts_last_url = true) :
    ∃ tail, (sourceStep L d c s).events =
      Event.crawlCall s.name config.max_pages (dictGet L config.community_id) :: tail := by
  rcases s with ⟨name, cfg, crawl, fR, sR, cE, acc⟩
  simp only at hcfg hacc
  subst hcfg
  subst hacc
  simp only [sourceStep]
  repeat' split
  all_goals first
  | exact ⟨_, rfl⟩
  | simp_all

/-- A configured source whose adapter signature lacks `last_url`
(quasarzone) fails at argument binding on every `crawl_all` run: the
adapter is never invoked, nothing is counted, only the failure is
recorded. -/
theorem sourceStep_marker_rejected (L : List (Nat × String)) (d c : Bool) (s : SourceRun)
    (config : SourceCfg) (hcfg : s.cfg = some config)
    (hacc : s.accepts_last_url = false) :
    sourceStep L d c s = ⟨[Event.sourceFailed s.name], 0, 0⟩ := by
  rcases s with ⟨name, cfg, crawl, fR, sR, cE, acc⟩
  simp only at hcfg hacc
  subst hcfg
  subst hacc
  rfl

/-- A source whose adapter raises contributes nothing to either counter
and, when configured, is recorded as failed. -/
theorem sourceStep_crawl_raised (L : List (Nat × String)) (d c : Bool) (s : SourceRun)
    (h : s.crawl = none) :
    (sourceStep L d c s).crawled = 0 ∧ (sourceStep L d c s).saved = 0 ∧
    (∀ config, s.cfg = some config →
      Event.sourceFailed s.name ∈ (sourceStep L d c s).events) := by
  unfold sourceStep
  rcases hcfg : s.cfg with _ | config
  · simp
  · by_cases hacc : s.accepts_last_url = true <;> simp [hacc, h]

/-- Every configured, marker-accepting source's adapter invocation appears
in the run's trace, with the stop marker resolved from the one aggregate
query. -/
theorem crawl_all_crawlCall_mem (rpcResult : Option (List (Nat × String)))
    (sources : List SourceRun) (d c : Bool) (s : SourceRun) (hs : s ∈ sources)
    (config : SourceCfg) (hcfg : s.cfg = some config)
    (hacc : s.accepts_last_url = true) :
    Event.crawlCall s.name config.max_pages
      (dictGet (get_latest_urls rpcResult) config.community_id) ∈
      (crawl_all rpcResult sources d c).trace := by
  rw [crawl_all_decomposition]
  obtain ⟨tail, he⟩ :=
    sourceStep_crawlCall (get_latest_urls rpcResult) d c s config hcfg hacc
  refine List.mem_cons_of_mem _ (List.mem_flatten.mpr ⟨_, List.mem_map.mpr ⟨s, hs, rfl⟩, ?_⟩)
  rw [he]
  exact List.mem_cons_self _ _

/-- The aggregate latest-url query happens exactly once per run and opens
the trace. -/
theorem crawl_all_single_aggQuery (rpcResult : Option (List (Nat × String)))
    (sources : List SourceRun) (d c : Bool) :
    (crawl_all rpcResult sources d c).trace.count Event.aggQuery = 1 ∧
    (crawl_all rpcResult sources d c).trace.head? = some Event.aggQuery := by
  rw [crawl_all_decomposition]
  refine ⟨?_, rfl⟩
  rw [List.count_cons_self]
  have : Event.aggQuery ∉
      (sources.map fun s => (sourceStep (get_latest_urls rpcResult) d c s).events).flatten := by
    intro hmem
    obtain ⟨l, hl, hx⟩ := List.mem_flatten.mp hmem
    obtain ⟨s, _, rfl⟩ := List.mem_map.mp hl
    exact sourceStep_no_aggQuery _ d c s hx
  rw [List.count_eq_zero.mpr this]

/-- The article loop never stops when no stop marker was supplied. -/
theorem clien_crawl_page_none (articles : List Deal) :
    clien_crawl_page articles none = (articles, false) := by
  induction articles with
  | nil => rfl
  | cons a rest ih => simp [clien_crawl_page, stop_at_last_url, ih]

/-- The page loop with no stop marker collects every page in range. -/
theorem clien_crawl_loop_none (pages : Nat → List Deal) :
    ∀ (remaining page_num : Nat),
      clien_crawl_loop pages none remaining page_num false =
        ((List.range' page_num remaining).map pages).flatten := by
  intro remaining
  induction remaining with
  | zero => intro page_num; rfl
  | succ r ih =>
    intro page_num
    rw [List.range'_succ]
    simp [clien_crawl_loop, clien_crawl_page_none, ih]

/-- With a null stop marker the adapter crawls unconditionally: it returns
the concatenation of all `max_pages` pages. -/
theorem clien_crawl_none (pages : Nat → List Deal) (max_pages : Nat) :
    clien_crawl pages max_pages none = ((List.range max_pages).map pages).flatten := by
  rw [clien_crawl, clien_crawl_loop_none, List.range_eq_range']

/-- Counterexample to C3: `crawl_all` calls
`crawler.crawl(max_pages=..., last_url=last_url)`, but
`QuasarzoneCrawler.crawl` (`quasarzone.py:27`) takes no `last_url`, so for
that registered, configured source the call raises `TypeError` at binding
on every run: the trace holds no adapter invocation at all — only the
per-source failure — and the source's adapter, which would have returned a
deal, crawls nothing.  This falsifies "that source's adapter is invoked
with a null stop marker, i.e., it crawls unconditionally for maxPages". -/
theorem stop_marker_quasarzone_cex :
    (crawl_all none [⟨"quasarzone", some ⟨1, 100, 40⟩, some [⟨"t", "u", none, 40⟩],
        fun b => some b, fun _ => some 1, false, false⟩] true true).trace =
      [Event.aggQuery, Event.sourceFailed "quasarzone"] ∧
    (crawl_all none [⟨"quasarzone", some ⟨1, 100, 40⟩, some [⟨"t", "u", none, 40⟩],
        fun b => some b, fun _ => some 1, false, false⟩] true true).total_crawled = 0 := by
  decide

/-- C3 (amended): before any source is crawled the orchestrator resolves
the stop markers with a single aggregate query (the trace opens with
exactly one `aggQuery`); every configured source whose adapter signature
accepts `last_url` is then invoked with the marker looked up for its
`community_id`; when the query failed (`none`) the run is not aborted and
those adapters are invoked with a null stop marker, under which the
adapter crawls unconditionally for `max_pages`.  The exception is
quasarzone, whose `crawl` lacks the `last_url` parameter: its invocation
raises `TypeError` at binding, so that adapter is never invoked and the
source only fails — caught per-source, never fatal. -/
theorem stop_marker_resolution (rpcResult : Option (List (Nat × String)))
    (sources : List SourceRun) (d c : Bool) :
    ((crawl_all rpcResult sources d c).trace.count Event.aggQuery = 1) ∧
    ((crawl_all rpcResult sources d c).trace.head? = some Event.aggQuery) ∧
    (∀ s ∈ sources, s.accepts_last_url = true → ∀ config, s.cfg = some config →
      Event.crawlCall s.name config.max_pages
        (dictGet (get_latest_urls rpcResult) config.community_id) ∈
        (crawl_all rpcResult sources d c).trace) ∧
    (rpcResult = none → ∀ s ∈ sources, s.accepts_last_url = true →
      ∀ config, s.cfg = some config →
      Event.crawlCall s.name config.max_pages none ∈ (crawl_all rpcResult sources d c).trace) ∧
    (∀ pages max_pages, clien_crawl pages max_pages none =
      ((List.range max_pages).map pages).flatten) ∧
    (∀ s ∈ sources, s.accepts_last_url = false → ∀ config, s.cfg = some config →
      sourceStep (get_latest_urls rpcResult) d c s =
        ⟨[Event.sourceFailed s.name], 0, 0⟩) := by
  refine ⟨(crawl_all_single_aggQuery rpcResult sources d c).1,
    (crawl_all_single_aggQuery rpcResult sources d c).2,
    fun s hs hacc config hcfg =>
      crawl_all_crawlCall_mem rpcResult sources d c s hs config hcfg hacc,
    ?_, fun pages mp => clien_crawl_none pages mp,
    fun s _ hacc config hcfg =>
      sourceStep_marker_rejected (get_latest_urls rpcResult) d c s config hcfg hacc⟩
  rintro rfl s hs hacc config hcfg
  exact crawl_all_crawlCall_mem none sources d c s hs config hcfg hacc

/-- Witness for C3 (amended): with a failed aggregate query, a registered
configured marker-accepting source is still crawled, with a null stop
marker; a registered configured quasarzone-style source only fails. -/
theorem stop_marker_resolution_witness :
    Event.crawlCall "clien" 1 none ∈
      (crawl_all none
        [⟨"clien", some ⟨1, 100, 10⟩, some [], fun b => some b, fun _ => some 0, false, true⟩]
        true true).trace ∧
    sourceStep (get_latest_urls none) true true
      ⟨"quasarzone", some ⟨1, 100, 40⟩, some [], fun b => some b, fun _ => some 0, false, false⟩ =
      ⟨[Event.sourceFailed "quasarzone"], 0, 0⟩ :=
  ⟨(stop_marker_resolution none
      [⟨"clien", some ⟨1, 100, 10⟩, some [], fun b => some b, fun _ => some 0, false, true⟩]
      true true).2.2.2.1 rfl
    ⟨"clien", some ⟨1, 100, 10⟩, some [], fun b => some b, fun _ => some 0, false, true⟩
    (List.mem_singleton.mpr rfl) rfl ⟨1, 100, 10⟩ rfl,
   (stop_marker_resolution none
      [⟨"quasarzone", some ⟨1, 100, 40⟩, some [], fun b => some b, fun _ => some 0, false, false⟩]
      true true).2.2.2.2.2
    ⟨"quasarzone", some ⟨1, 100, 40⟩, some [], fun b => some b, fun _ => some 0, false, false⟩
    (List.mem_singleton.mpr rfl) rfl ⟨1, 100, 40⟩ rfl⟩

/-- Counterexample to C4: `total_crawled` is incremented before the filter
and save stages run, so a source that crawls 1 deal and then fails at save
still contributes that deal to `total_crawled`.  In a run whose only
source fails, a pair aggregated over the non-failed sources would be
`(0, 0)`, yet the run returns `total_crawled = 1`. -/
theorem crawl_all_totals_cex :
    (crawl_all none [⟨"a", some ⟨1, 100, 10⟩, some [⟨"t", "u", none, 10⟩],
        fun b => some b, fun _ => none, false, true⟩] true true).total_crawled = 1 ∧
    Event.sourceFailed "a" ∈ (crawl_all none [⟨"a", some ⟨1, 100, 10⟩,
        some [⟨"t", "u", none, 10⟩], fun b => some b, fun _ => none, false, true⟩]
      true true).trace ∧
    (1 : Nat) ≠ 0 := by decide

/-- C4 (amended): an exception anywhere in one source's pipeline is caught
at the per-source boundary: the run always returns normally, its totals
are the sums of per-source contributions — each a function of that source
alone, so one source's failure leaves the others' counts unaffected — and
a source whose adapter throws on every call contributes zero to both
totals and is recorded as failed.  However `total_crawled` (unlike
`total_saved`) also counts sources that failed after their crawl
succeeded. -/
theorem crawl_all_per_source_isolation (rpcResult : Option (List (Nat × String)))
    (sources : List SourceRun) (d c : Bool) :
    crawl_all rpcResult sources d c =
      ⟨(sources.map fun s => (sourceStep (get_latest_urls rpcResult) d c s).crawled).sum,
       (sources.map fun s => (sourceStep (get_latest_urls rpcResult) d c s).saved).sum,
       Event.aggQuery ::
         (sources.map fun s => (sourceStep (get_latest_urls rpcResult) d c s).events).flatten⟩ ∧
    (∀ s ∈ sources, s.crawl = none →
      (sourceStep (get_latest_urls rpcResult) d c s).crawled = 0 ∧
      (sourceStep (get_latest_urls rpcResult) d c s).saved = 0 ∧
      ∀ config, s.cfg = some config →
        Event.sourceFailed s.name ∈ (crawl_all rpcResult sources d c).trace) := by
  have hdec := crawl_all_decomposition rpcResult sources d c
  refine ⟨hdec, ?_⟩
  intro s hs hc
  obtain ⟨h1, h2, h3⟩ := sourceStep_crawl_raised (get_latest_urls rpcResult) d c s hc
  refine ⟨h1, h2, ?_⟩
  intro config hcfg
  rw [hdec]
  exact List.mem_cons_of_mem _
    (List.mem_flatten.mpr ⟨_, List.mem_map.mpr ⟨s, hs, rfl⟩, h3 config hcfg⟩)

/-- Witness for C4 (amended): a source whose adapter raises contributes
nothing and is recorded as failed. -/
theorem crawl_all_per_source_isolation_witness :
    (sourceStep (get_latest_urls none) true true
      ⟨"a", some ⟨1, 100, 10⟩, none, fun b => some b, fun _ => some 0, false, true⟩).crawled = 0 ∧
    Event.sourceFailed "a" ∈ (crawl_all none
      [⟨"a", some ⟨1, 100, 10⟩, none, fun b => some b, fun _ => some 0, false, true⟩]
      true true).trace := by
  have h := (crawl_all_per_source_isolation none
      [⟨"a", some ⟨1, 100, 10⟩, none, fun b => some b, fun _ => some 0, false, true⟩] true true).2
    ⟨"a", some ⟨1, 100, 10⟩, none, fun b => some b, fun _ => some 0, false, true⟩
    (List.mem_singleton.mpr rfl) rfl
  exact ⟨h.1, h.2.2 ⟨1, 100, 10⟩ rfl⟩

/-- Counterexample to C7: the entry point never reads its argument list —
invoked with a source name it still runs every registered source.  With a
two-source registry and the argument `clien`, the run still crawls
`ppomppu`, and the result is identical to the no-argument invocation. -/
theorem entry_point_no_source_argument_cex :
    main_run ["clien"] none
        [⟨"clien", some ⟨1, 100, 10⟩, some [], fun b => some b, fun _ => some 0, false, true⟩,
         ⟨"ppomppu", some ⟨1, 100, 20⟩, some [], fun b => some b, fun _ => some 0, false, true⟩] =
      main_run [] none
        [⟨"clien", some ⟨1, 100, 10⟩, some [], fun b => some b, fun _ => some 0, false, true⟩,
         ⟨"ppomppu", some ⟨1, 100, 20⟩, some [], fun b => some b, fun _ => some 0, false, true⟩] ∧
    Event.crawlCall "ppomppu" 1 none ∈
      (main_run ["clien"] none
        [⟨"clien", some ⟨1, 100, 10⟩, some [], fun b => some b, fun _ => some 0, false, true⟩,
         ⟨"ppomppu", some ⟨1, 100, 20⟩, some [], fun b => some b,
           fun _ => some 0, false, true⟩]).trace :=
  ⟨rfl, by decide⟩

/-- C7 (amended): the entry point takes no command-line argument: its
result is independent of `argv`, and it always runs every configured
source whose adapter accepts the orchestrator's call.  Single-source runs
exist only as the separate `crawl_community` method, which the entry
point never invokes. -/
theorem entry_point_runs_all_sources (argv : List String)
    (rpcResult : Option (List (Nat × String))) (sources : List SourceRun) :
    main_run argv rpcResult sources = main_run [] rpcResult sources ∧
    (∀ s ∈ sources, s.accepts_last_url = true → ∀ config, s.cfg = some config →
      Event.crawlCall s.name config.max_pages
        (dictGet (get_latest_urls rpcResult) config.community_id) ∈
        (main_run argv rpcResult sources).trace) :=
  ⟨rfl, fun s hs hacc config hcfg =>
    crawl_all_crawlCall_mem rpcResult sources (cfgEnabled DUPLICATE_CHECK)
      (cfgEnabled CLEANUP_CONFIG) s hs config hcfg hacc⟩

/-- Witness for C7 (amended): a concrete one-source registry is crawled
whatever the argument list says. -/
theorem entry_point_runs_all_sources_witness :
    Event.crawlCall "clien" 1 none ∈
      (main_run ["quasarzone"] none
        [⟨"clien", some ⟨1, 100, 10⟩, some [], fun b => some b,
          fun _ => some 0, false, true⟩]).trace :=
  (entry_point_runs_all_sources ["quasarzone"] none
      [⟨"clien", some ⟨1, 100, 10⟩, some [], fun b => some b, fun _ => some 0, false, true⟩]).2
    ⟨"clien", some ⟨1, 100, 10⟩, some [], fun b => some b, fun _ => some 0, false, true⟩
    (List.mem_singleton.mpr rfl) rfl ⟨1, 100, 10⟩ rfl

/-- Every adapter invocation recorded by `crawl_community` carries a null
stop marker (`crawler.crawl(max_pages=...)` passes no `last_url`). -/
theorem crawl_community_marker_none (registry : List SourceRun) (community_name : String)
    (d c : Bool) (name : String) (mp : Nat) (marker : Option String)
    (h : Event.crawlCall name mp marker ∈
      (crawl_community registry community_name d c).events) :
    marker = none := by
  unfold crawl_community at h
  repeat' split at h
  all_goals simp_all

/-- C9: the single-source entry (`crawl_community`) invokes the crawler
with only `max_pages` — every recorded adapter invocation has a null stop
marker — so the adapter crawls unconditionally for `max_pages` (shown on
the adapter page loop: with a null marker it concatenates every page);
and, under the shipped configuration, the duplicate filter passes the
batch through unchanged, so already-stored records are only rejected by
the store's uniqueness constraint when their insert is attempted. -/
theorem single_source_run_no_stop_marker (registry : List SourceRun)
    (community_name : String) (d c : Bool) :
    (∀ name mp marker, Event.crawlCall name mp marker ∈
      (crawl_community registry community_name d c).events → marker = none) ∧
    (∀ pages max_pages, clien_crawl pages max_pages none =
      ((List.range max_pages).map pages).flatten) ∧
    (∀ sim θ q deals, filter_duplicates_by_title sim deals DUPLICATE_CHECK q θ = deals) :=
  ⟨fun name mp marker h =>
      crawl_community_marker_none registry community_name d c name mp marker h,
   fun pages mp => clien_crawl_none pages mp,
   fun sim θ q deals => shippedFilter_id sim θ q deals⟩

/-- Witness for C9: in a concrete one-source registry the recorded
invocation indeed carries a null marker, and the adapter loop with that
null marker returns both pages' records. -/
theorem single_source_run_no_stop_marker_witness :
    ((none : Option String) = none) ∧
    clien_crawl (fun _ => [⟨"t", "u", none, 10⟩]) 2 none =
      [⟨"t", "u", none, 10⟩, ⟨"t", "u", none, 10⟩] :=
  ⟨(single_source_run_no_stop_marker
      [⟨"clien", some ⟨2, 100, 10⟩, some [], fun b => some b, fun _ => some 0, false, true⟩]
      "clien" true true).1 "clien" 2 none (by decide),
   ((single_source_run_no_stop_marker
      [⟨"clien", some ⟨2, 100, 10⟩, some [], fun b => some b, fun _ => some 0, false, true⟩]
      "clien" true true).2.1 (fun _ => [⟨"t", "u", none, 10⟩]) 2).trans (by decide)⟩

/-- `listPrefixOf` decides list-prefixing. -/
theorem listPrefixOf_iff : ∀ (n h : List Char), listPrefixOf n h = true ↔ n <+: h := by
  intro n
  induction n with
  | nil => intro h; simp [listPrefixOf]
  | cons a as ih =>
    intro h
    cases h with
    | nil => simp [listPrefixOf]
    | cons b bs => simp [listPrefixOf, List.cons_prefix_cons, ih bs, And.comm]

/-- `listContains` decides the Python `in` substring test. -/
theorem listContains_iff (hay needle : List Char) :
    listContains hay needle = true ↔ needle <:+: hay := by
  induction hay with
  | nil =>
    rw [listContains, List.infix_nil]
    cases needle with
    | nil => simp [listPrefixOf]
    | cons c cs => simp [listPrefixOf]
  | cons x xs ih =>
    rw [listContains, List.infix_cons_iff]
    by_cases hp : listPrefixOf needle (x :: xs) = true
    · simp [hp, (listPrefixOf_iff needle (x :: xs)).mp hp]
    · have hb : listPrefixOf needle (x :: xs) = false := by
        cases hq : listPrefixOf needle (x :: xs)
        · rfl
        · exact absurd hq hp
      have hnp : ¬ (needle <+: x :: xs) := fun hc => hp ((listPrefixOf_iff _ _).mpr hc)
      simp [hb, ih, hnp]

/-- Lower-casing the message preserves an already-lower-case substring. -/
theorem listContains_toLower (msg : String) (needle : List Char)
    (hfix : needle.map Char.toLower = needle)
    (h : listContains msg.toList needle = true) :
    listContains (toLowerChars msg) needle = true := by
  rw [listContains_iff] at h ⊢
  have hm := List.IsInfix.map Char.toLower h
  rw [hfix] at hm
  exact hm

/-- The save fold from any counter state adds the per-outcome counts. -/
theorem save_foldl_counts (insert : Deal → Except String Unit) :
    ∀ (l : List Deal) (a b c : Nat),
      l.foldl (fun (acc : Nat × Nat × Nat) deal =>
        match insert deal with
        | Except.ok _ => (acc.1 + 1, acc.2.1, acc.2.2)
        | Except.error e =>
          if is_duplicate_error e then (acc.1, acc.2.1 + 1, acc.2.2)
          else (acc.1, acc.2.1, acc.2.2 + 1)) (a, b, c) =
      (a + l.countP (fun d => match insert d with
          | Except.ok _ => true | Except.error _ => false),
       b + l.countP (fun d => match insert d with
          | Except.ok _ => false | Except.error e => is_duplicate_error e),
       c + l.countP (fun d => match insert d with
          | Except.ok _ => false | Except.error e => !(is_duplicate_error e))) := by
  intro l
  induction l with
  | nil => intro a b c; simp
  | cons d rest ih =>
    intro a b c
    rw [List.foldl_cons]
    cases hi : insert d with
    | ok u =>
      simp only [hi]
      rw [ih]
      simp [List.countP_cons, hi, Prod.ext_iff]
      omega
    | error e =>
      by_cases he : is_duplicate_error e = true
      · simp only [hi, if_pos he]
        rw [ih]
        simp [List.countP_cons, hi, he, Prod.ext_iff]
        omega
      · simp only [hi, if_neg he]
        rw [ih]
        simp [List.countP_cons, hi, he, Prod.ext_iff]
        omega

/-- The three counters of `save_deals_to_supabase` count the batch's
insert outcomes (counting is order-independent, so over the original
batch). -/
theorem save_counts (insert : Deal → Except String Unit) (deals : List Deal) :
    (save_deals_to_supabase insert deals).saved_count =
      deals.countP (fun d => match insert d with
        | Except.ok _ => true | Except.error _ => false) ∧
    (save_deals_to_supabase insert deals).duplicate_count =
      deals.countP (fun d => match insert d with
        | Except.ok _ => false | Except.error e => is_duplicate_error e) ∧
    (save_deals_to_supabase insert deals).error_count =
      deals.countP (fun d => match insert d with
        | Except.ok _ => false | Except.error e => !(is_duplicate_error e)) := by
  have hperm := List.perm_insertionSort posted_at_le deals
  simp only [save_deals_to_supabase, save_foldl_counts, Nat.zero_add]
  exact ⟨List.Perm.countP_eq _ hperm, List.Perm.countP_eq _ hperm,
    List.Perm.countP_eq _ hperm⟩

/-- C10: the save loop attempts its inserts in ascending order of the
`posted_at` key (records lacking the field sort first, as the least key),
over a permutation of the input batch whatever order the adapter emitted;
the function's return value (`saved_count`) equals the number of
successful inserts, and a failing insert whose message contains
`duplicate` or `unique` is counted as a duplicate, not an error.  The
function is total: no exception escapes it. -/
theorem save_deals_ordered_counts (insert : Deal → Except String Unit) (deals : List Deal) :
    (save_deals_to_supabase insert deals).insert_order.Perm deals ∧
    List.Sorted posted_at_le (save_deals_to_supabase insert deals).insert_order ∧
    (save_deals_to_supabase insert deals).saved_count =
      deals.countP (fun d => match insert d with
        | Except.ok _ => true | Except.error _ => false) ∧
    (save_deals_to_supabase insert deals).duplicate_count =
      deals.countP (fun d => match insert d with
        | Except.ok _ => false | Except.error e => is_duplicate_error e) ∧
    (save_deals_to_supabase insert deals).error_count =
      deals.countP (fun d => match insert d with
        | Except.ok _ => false | Except.error e => !(is_duplicate_error e)) ∧
    (∀ msg : String, listContains msg.toList ("duplicate" : String).toList = true →
      is_duplicate_error msg = true) ∧
    (∀ msg : String, listContains msg.toList ("unique" : String).toList = true →
      is_duplicate_error msg = true) := by
  obtain ⟨h1, h2, h3⟩ := save_counts insert deals
  refine ⟨List.perm_insertionSort posted_at_le deals,
    List.sorted_insertionSort posted_at_le deals, h1, h2, h3, ?_, ?_⟩
  · intro msg hm
    have hlow := listContains_toLower msg ("duplicate" : String).toList (by decide) hm
    simp only [is_duplicate_error, Bool.or_eq_true]
    exact Or.inl hlow
  · intro msg hm
    have hlow := listContains_toLower msg ("unique" : String).toList (by decide) hm
    simp only [is_duplicate_error, Bool.or_eq_true]
    exact Or.inr hlow

/-- Witness for C10: concrete store error messages containing the
duplicate/unique markers are classified as duplicates. -/
theorem save_deals_ordered_counts_witness :
    listContains ("X duplicate key" : String).toList ("duplicate" : String).toList = true ∧
    is_duplicate_error "X duplicate key" = true ∧
    listContains ("violates unique index" : String).toList ("unique" : String).toList = true ∧
    is_duplicate_error "violates unique index" = true :=
  ⟨by decide,
   (save_deals_ordered_counts (fun _ => Except.ok ()) []).2.2.2.2.2.1
     "X duplicate key" (by decide),
   by decide,
   (save_deals_ordered_counts (fun _ => Except.ok ()) []).2.2.2.2.2.2
     "violates unique index" (by decide)⟩
